import Mathlib

/-!
Verification of the fetchkit/webfetch content-conversion and fetch-dispatch core.

Rust strings are modelled as lists of Unicode scalar values (`List Char`),
and each Rust function of the core is embedded as a computable Lean
definition with the same name (module paths flattened).  Sources:
`crates/webfetch/src/convert.rs`, `crates/fetchkit/src/fetchers/default.rs`,
`crates/fetchkit/src/fetchers/mod.rs`, `crates/fetchkit/src/fetchers/github_repo.rs`,
`crates/fetchkit/src/client.rs`.
-/

/-- Model of a Rust string: the sequence of Unicode scalar values. -/
abbrev Str : Type := List Char

/-- Model of Rust `char::is_whitespace`: the Unicode White_Space property. -/
def char_is_whitespace (c : Char) : Bool :=
  decide ((9 ≤ c.toNat ∧ c.toNat ≤ 13) ∨ c.toNat = 32 ∨ c.toNat = 0x85 ∨
    c.toNat = 0xA0 ∨ c.toNat = 0x1680 ∨ (0x2000 ≤ c.toNat ∧ c.toNat ≤ 0x200A) ∨
    c.toNat = 0x2028 ∨ c.toNat = 0x2029 ∨ c.toNat = 0x202F ∨ c.toNat = 0x205F ∨
    c.toNat = 0x3000)

/-- ASCII case folding of a single character (the fragment of Rust
`char::to_lowercase` relevant to the ASCII patterns used by the code). -/
def char_to_ascii_lower (c : Char) : Char :=
  if 65 ≤ c.toNat ∧ c.toNat ≤ 90 then Char.ofNat (c.toNat + 32) else c

/-- Model of Rust `str::to_lowercase`, restricted to ASCII case folding. -/
def to_lowercase (s : Str) : Str := s.map char_to_ascii_lower

/-- Model of Rust `str::find(pattern)` for a string pattern: index of the
first occurrence of `pat` in the string. -/
def find_sub : Str → Str → Option Nat
  | [], pat => if pat = [] then some 0 else none
  | c :: rest, pat =>
    if pat.isPrefixOf (c :: rest) then some 0 else (find_sub rest pat).map (· + 1)

/-- Model of Rust `str::contains(pattern)` for a string pattern. -/
def str_contains (hay pat : Str) : Bool := (find_sub hay pat).isSome

/-- Model of Rust `str::find(predicate)`: index of the first character
satisfying the predicate. -/
def find_char : Str → (Char → Bool) → Option Nat
  | [], _ => none
  | c :: rest, p => if p c then some 0 else (find_char rest p).map (· + 1)

/-- Model of Rust `str::trim_start`. -/
def trim_start_ws (s : Str) : Str := s.dropWhile char_is_whitespace

/-- Model of Rust `str::trim` (both ends). -/
def trim_ws (s : Str) : Str :=
  ((s.dropWhile char_is_whitespace).reverse.dropWhile char_is_whitespace).reverse

/-- Model of `is_html` (convert.rs): content-type sniffing first, then
body-prefix sniffing.  The body check of the source is case-sensitive. -/
def is_html (content_type : Option Str) (body : Str) : Bool :=
  (match content_type with
   | some ct =>
     let ctl := to_lowercase ct
     str_contains ctl ( "text/html".toList) ||
     str_contains ctl ( "application/xhtml".toList)
   | none => false) ||
  (let trimmed := trim_start_ws body
   List.isPrefixOf ( "<!DOCTYPE".toList) trimmed ||
   List.isPrefixOf ( "<html".toList) trimmed)

/-- Loop of `clean_whitespace` (convert.rs lines 348-379): mirrors the
mutable variables `result`, `last_was_space`, `newline_count`. -/
def cw_go : Str → Str → Bool → Nat → Str
  | [], result, _, _ => result
  | c :: rest, result, last_was_space, newline_count =>
    if c = '\n' then
      let r1 := if last_was_space ∧ result.getLast? = some ' ' then result.dropLast
                else result
      let nc := newline_count + 1
      let r2 := if nc ≤ 2 then r1 ++ [ '\n' ] else r1
      cw_go rest r2 true nc
    else if char_is_whitespace c then
      let r2 := if !last_was_space then result ++ [ ' ' ] else result
      cw_go rest r2 true 0
    else cw_go rest (result ++ [c]) false 0

/-- Model of `clean_whitespace` (convert.rs): collapse whitespace runs and
trim the ends. -/
def clean_whitespace (s : Str) : Str := trim_ws (cw_go s [] false 0)

/-- Loop of `filter_excessive_newlines` (convert.rs lines 382-399): its
state is the `newline_count` counter. -/
def fen_go : Str → Nat → Str
  | [], _ => []
  | c :: rest, k =>
    if c = '\n' then
      if k + 1 ≤ 2 then c :: fen_go rest (k + 1) else fen_go rest (k + 1)
    else c :: fen_go rest 0

/-- Model of `filter_excessive_newlines` (convert.rs): cap newline runs at
two, leaving everything else untouched. -/
def filter_excessive_newlines (s : Str) : Str := fen_go s 0

/-- UTF-8 byte count of a string, modelling Rust `String::len`. -/
def utf8_len (s : Str) : Nat := (s.map Char.utf8Size).sum

/-- Double-quote character (U+0022). -/
def quote_char : Char := Char.ofNat 34

/-- Apostrophe character (U+0027). -/
def apos_char : Char := Char.ofNat 39

/-- Value of an ASCII decimal digit. -/
def digit_val (c : Char) : Option Nat :=
  if 48 ≤ c.toNat ∧ c.toNat ≤ 57 then some (c.toNat - 48) else none

/-- Value of an ASCII hexadecimal digit (both cases). -/
def hex_digit_val (c : Char) : Option Nat :=
  if 48 ≤ c.toNat ∧ c.toNat ≤ 57 then some (c.toNat - 48)
  else if 97 ≤ c.toNat ∧ c.toNat ≤ 102 then some (c.toNat - 87)
  else if 65 ≤ c.toNat ∧ c.toNat ≤ 70 then some (c.toNat - 55)
  else none

/-- Digit-accumulation loop of u32 parsing. -/
def parse_digits_go (dv : Char → Option Nat) (radix : Nat) : Str → Nat → Option Nat
  | [], acc => some acc
  | c :: rest, acc =>
    match dv c with
    | some d => parse_digits_go dv radix rest (acc * radix + d)
    | none => none

/-- Model of Rust u32 string parsing (`u32::from_str_radix` and
`str::parse::<u32>`): an optional leading plus sign, at least one digit,
failure on any other character and on overflow past 2^32 - 1. -/
def parse_u32 (dv : Char → Option Nat) (radix : Nat) (s : Str) : Option Nat :=
  let digits := match s with
    | '+' :: rest => rest
    | other => other
  if digits = [] then none
  else match parse_digits_go dv radix digits 0 with
    | some v => if v < 4294967296 then some v else none
    | none => none

/-- Model of Rust `char::from_u32`: rejects surrogates and values above
U+10FFFF. -/
def char_from_u32 (n : Nat) : Option Char :=
  if n < 0xD800 ∨ (0xDFFF < n ∧ n < 0x110000) then some (Char.ofNat n) else none

/-- Resolution of a captured entity body (the match of `decode_entity`,
convert.rs lines 313-344): named entities first, then numeric ones, with a
literal ampersand as the fallback. -/
def match_entity (entity : Str) : Char :=
  if entity = "amp".toList then '&'
  else if entity = "lt".toList then '<'
  else if entity = "gt".toList then '>'
  else if entity = "quot".toList then quote_char
  else if entity = "apos".toList then apos_char
  else if entity = "#39".toList then apos_char
  else if entity = "nbsp".toList then ' '
  else if entity = "mdash".toList then '—'
  else if entity = "ndash".toList then '–'
  else if entity = "copy".toList then '©'
  else if entity = "reg".toList then '®'
  else
    match entity with
    | '#' :: num =>
      match num with
      | 'x' :: hexs =>
        (match parse_u32 hex_digit_val 16 hexs with
         | some code => (char_from_u32 code).getD '&'
         | none => '&')
      | _ =>
        (match parse_u32 digit_val 10 num with
         | some code => (char_from_u32 code).getD '&'
         | none => '&')
    | _ => '&'

/-- Scan loop of `decode_entity`: consume characters up to the terminating
semicolon; bail out to a literal ampersand (already-scanned characters are
dropped, the offending character is left in the stream) on whitespace or
once the captured entity exceeds 10 bytes; at end of input the captured
text is resolved as the entity. -/
def decode_entity_go : Str → Str → Char × Str
  | [], entity => (match_entity entity, [])
  | c :: rest, entity =>
    if c = ';' then (match_entity entity, rest)
    else if char_is_whitespace c ∨ 10 < utf8_len entity then ('&', c :: rest)
    else decode_entity_go rest (entity ++ [c])

/-- Model of `decode_entity` (convert.rs lines 295-345): `c` is the current
character; the second component is what remains of the character stream. -/
def decode_entity (c : Char) (rest : Str) : Char × Str :=
  if c ≠ '&' then (c, rest) else decode_entity_go rest []

/-- Tag capture after a left angle bracket (convert.rs lines 32-39):
characters up to the first right angle bracket form the tag text; with no
right angle bracket the whole remainder is captured. -/
def span_tag : Str → Str × Str
  | [] => ([], [])
  | c :: rest =>
    if c = '>' then ([], rest)
    else
      let p := span_tag rest
      (c :: p.1, p.2)

/-- Model of Rust `str::split_whitespace().next().unwrap_or("")`. -/
def first_ws_token (s : Str) : Str :=
  (s.dropWhile char_is_whitespace).takeWhile (fun c => !char_is_whitespace c)

/-- Shared tag classification (convert.rs lines 41-47): lowercase the tag
text, detect a leading slash, and extract the tag name. -/
def tag_info (tag : Str) : Bool × Str :=
  let tag_lower := to_lowercase tag
  let is_closing := tag_lower.head? = some '/'
  let tag_name := if is_closing then first_ws_token tag_lower.tail
                  else first_ws_token tag_lower
  (decide is_closing, tag_name)

/-- Model of `extract_attribute` (convert.rs lines 268-292): locate
`attr=` in the lowercased tag, slice the original tag there, then read a
double-quoted, single-quoted, or bare value. -/
def extract_attribute (tag attr : Str) : Option Str :=
  let pattern := attr ++ [ '=' ]
  let tag_lower := to_lowercase tag
  match find_sub tag_lower pattern with
  | none => none
  | some start =>
    let rest0 := trim_start_ws (tag.drop (start + pattern.length))
    if rest0.head? = some quote_char then
      match find_char rest0.tail (fun d => d == quote_char) with
      | some e => some (rest0.tail.take e)
      | none => none
    else if rest0.head? = some apos_char then
      match find_char rest0.tail (fun d => d == apos_char) with
      | some e => some (rest0.tail.take e)
      | none => none
    else
      let e := (find_char rest0 (fun d => char_is_whitespace d || d == '>')).getD rest0.length
      some (rest0.take e)

/-- Skip elements shared by both converters (convert.rs lines 50 / 227). -/
def SKIP_TAGS : List Str :=
  [ "script".toList, "style".toList, "noscript".toList, "iframe".toList,
    "svg".toList]

/-- Removal of the first occurrence of `x`, or no change if absent. -/
def remove_first_occ : List Str → Str → List Str
  | [], _ => []
  | a :: rest, x => if a = x then rest else a :: remove_first_occ rest x

/-- Model of the `rposition` + `remove` pair: drop the rightmost
occurrence of `x`, if any. -/
def remove_last_occ (l : List Str) (x : Str) : List Str :=
  (remove_first_occ l.reverse x).reverse

/-- Skip-stack update on a skip tag (convert.rs lines 51-61 / 228-238): a
closer removes the rightmost matching frame; an opening non-self-closing
tag pushes its name. -/
def update_skip (stack : List Str) (tag : Str) (tag_name : Str) (is_closing : Bool) : List Str :=
  if is_closing then remove_last_occ stack tag_name
  else if tag.getLast? = some '/' then stack
  else stack ++ [tag_name]

theorem span_tag_snd_len (s : Str) : (span_tag s).2.length ≤ s.length := by
  induction s with
  | nil => simp [span_tag]
  | cons c rest ih =>
    simp only [span_tag, List.length_cons]
    split
    · show rest.length ≤ rest.length + 1
      omega
    · show (span_tag rest).2.length ≤ rest.length + 1
      omega

theorem decode_entity_go_snd_len (s acc : Str) :
    (decode_entity_go s acc).2.length ≤ s.length := by
  induction s generalizing acc with
  | nil => simp [decode_entity_go]
  | cons c rest ih =>
    simp only [decode_entity_go, List.length_cons]
    split
    · show rest.length ≤ rest.length + 1
      omega
    · split
      · show (c :: rest).length ≤ rest.length + 1
        simp
      · exact Nat.le_succ_of_le (ih _)

theorem decode_entity_snd_len (c : Char) (rest : Str) :
    (decode_entity c rest).2.length ≤ rest.length := by
  unfold decode_entity
  split
  · exact Nat.le_refl _
  · exact decode_entity_go_snd_len rest []

/-- Indentation emitted in front of a list item. -/
def li_indent (n : Nat) : Str := (List.replicate n ( "  ".toList)).flatten

/-- State of the Markdown conversion loop (convert.rs lines 20-25). -/
structure MdState where
  output : Str
  in_skip_element : Nat
  skip_elements : List Str
  list_depth : Nat
  in_pre : Bool
  in_blockquote : Bool
deriving Repr, DecidableEq

/-- Tag handling of `html_to_markdown` (convert.rs lines 41-183), with
the already-computed closing flag and tag name as arguments. -/
def process_md_tag_core (st : MdState) (tag : Str) (is_closing : Bool)
    (tag_name : Str) : MdState :=
  if SKIP_TAGS.contains tag_name then
    let se := update_skip st.skip_elements tag tag_name is_closing
    { st with skip_elements := se, in_skip_element := se.length }
  else if 0 < st.in_skip_element then st
  else if tag_name = "h1".toList then
    if !is_closing then { st with output := st.output ++ "\n# ".toList }
    else { st with output := st.output ++ "\n\n".toList }
  else if tag_name = "h2".toList then
    if !is_closing then { st with output := st.output ++ "\n## ".toList }
    else { st with output := st.output ++ "\n\n".toList }
  else if tag_name = "h3".toList then
    if !is_closing then { st with output := st.output ++ "\n### ".toList }
    else { st with output := st.output ++ "\n\n".toList }
  else if tag_name = "h4".toList then
    if !is_closing then { st with output := st.output ++ "\n#### ".toList }
    else { st with output := st.output ++ "\n\n".toList }
  else if tag_name = "h5".toList then
    if !is_closing then { st with output := st.output ++ "\n##### ".toList }
    else { st with output := st.output ++ "\n\n".toList }
  else if tag_name = "h6".toList then
    if !is_closing then { st with output := st.output ++ "\n###### ".toList }
    else { st with output := st.output ++ "\n\n".toList }
  else if tag_name = "p".toList ∨ tag_name = "div".toList ∨
      tag_name = "section".toList ∨ tag_name = "article".toList ∨
      tag_name = "main".toList ∨ tag_name = "header".toList ∨
      tag_name = "footer".toList then
    if is_closing then { st with output := st.output ++ "\n\n".toList } else st
  else if tag_name = "br".toList then
    { st with output := st.output ++ [ '\n' ] }
  else if tag_name = "hr".toList then
    { st with output := st.output ++ "\n---\n".toList }
  else if tag_name = "ul".toList ∨ tag_name = "ol".toList then
    if is_closing then
      let d := st.list_depth - 1
      if d = 0 then { st with list_depth := d, output := st.output ++ [ '\n' ] }
      else { st with list_depth := d }
    else { st with list_depth := st.list_depth + 1 }
  else if tag_name = "li".toList then
    if !is_closing then
      { st with output := st.output ++ [ '\n' ] ++ li_indent (st.list_depth - 1) ++
          "- ".toList }
    else st
  else if tag_name = "strong".toList ∨ tag_name = "b".toList then
    { st with output := st.output ++ "**".toList }
  else if tag_name = "em".toList ∨ tag_name = "i".toList then
    { st with output := st.output ++ [ '*' ] }
  else if tag_name = "pre".toList then
    if !is_closing then
      { st with output := st.output ++ "\n```\n".toList, in_pre := true }
    else { st with output := st.output ++ "\n```\n".toList, in_pre := false }
  else if tag_name = "code".toList then
    if !st.in_pre then { st with output := st.output ++ "`".toList } else st
  else if tag_name = "blockquote".toList then
    if !is_closing then
      { st with in_blockquote := true, output := st.output ++ "\n> ".toList }
    else { st with in_blockquote := false, output := st.output ++ [ '\n' ] }
  else if tag_name = "a".toList then
    if !is_closing then
      match extract_attribute tag ( "href".toList) with
      | some href =>
        { st with output := st.output ++ [ '[' ] ++ "](".toList ++ href ++ [ ')' ] }
      | none => st
    else st
  else st

/-- Tag handling of `html_to_markdown` (convert.rs lines 41-183). -/
def process_md_tag (st : MdState) (tag : Str) : MdState :=
  process_md_tag_core st tag (tag_info tag).1 (tag_info tag).2

/-- Scan loop of `html_to_markdown` (convert.rs lines 29-193), written
with an explicit step budget so that it is structurally recursive; every
iteration consumes at least one character, and `span_tag_snd_len` and
`decode_entity_snd_len` show the leftover input never exceeds the budget,
so a budget of the input length reproduces the Rust loop exactly. -/
def md_go_fuel : Nat → Str → MdState → MdState
  | _, [], st => st
  | 0, _ :: _, st => st
  | fuel + 1, c :: rest, st =>
    if c = '<' then
      let p := span_tag rest
      md_go_fuel fuel p.2 (process_md_tag st p.1)
    else if st.in_skip_element = 0 then
      let d := decode_entity c rest
      let st' :=
        if st.in_blockquote ∧ d.1 = '\n' then
          { st with output := st.output ++ "\n> ".toList }
        else { st with output := st.output ++ [d.1] }
      md_go_fuel fuel d.2 st'
    else md_go_fuel fuel rest st

/-- Scan loop of `html_to_markdown` at its natural budget. -/
def md_go (s : Str) (st : MdState) : MdState := md_go_fuel s.length s st

/-- Initial state of a Markdown conversion. -/
def initial_md_state : MdState :=
  { output := [], in_skip_element := 0, skip_elements := [], list_depth := 0,
    in_pre := false, in_blockquote := false }

/-- Model of `html_to_markdown` (convert.rs lines 19-196). -/
def html_to_markdown (html : Str) : Str :=
  clean_whitespace (md_go html initial_md_state).output

/-- State of the plain-text conversion loop (convert.rs lines 200-202). -/
structure TextState where
  output : Str
  in_skip_element : Nat
  skip_elements : List Str
deriving Repr, DecidableEq

/-- Newline-inducing elements of the plain-text converter. -/
def NEWLINE_TAGS : List Str :=
  [ "p".toList, "div".toList, "br".toList, "h1".toList, "h2".toList,
    "h3".toList, "h4".toList, "h5".toList, "h6".toList, "li".toList,
    "tr".toList]

/-- Tag handling of `html_to_text` (convert.rs lines 218-256), with the
already-computed closing flag and tag name as arguments. -/
def process_text_tag_core (st : TextState) (tag : Str) (is_closing : Bool)
    (tag_name : Str) : TextState :=
  if SKIP_TAGS.contains tag_name then
    let se := update_skip st.skip_elements tag tag_name is_closing
    { st with skip_elements := se, in_skip_element := se.length }
  else if 0 < st.in_skip_element then st
  else if NEWLINE_TAGS.contains tag_name ∧ (is_closing ∨ tag_name = "br".toList) then
    { st with output := st.output ++ [ '\n' ] }
  else if NEWLINE_TAGS.contains tag_name ∧ !is_closing then
    if tag_name = "h1".toList ∨ tag_name = "h2".toList ∨
        tag_name = "h3".toList ∨ tag_name = "h4".toList ∨
        tag_name = "h5".toList ∨ tag_name = "h6".toList ∨
        tag_name = "p".toList then
      { st with output := st.output ++ [ '\n' ] }
    else st
  else st

/-- Tag handling of `html_to_text` (convert.rs lines 218-256). -/
def process_text_tag (st : TextState) (tag : Str) : TextState :=
  process_text_tag_core st tag (tag_info tag).1 (tag_info tag).2

/-- Scan loop of `html_to_text` (convert.rs lines 206-262), with the same
explicit step budget as the Markdown loop. -/
def text_go_fuel : Nat → Str → TextState → TextState
  | _, [], st => st
  | 0, _ :: _, st => st
  | fuel + 1, c :: rest, st =>
    if c = '<' then
      let p := span_tag rest
      text_go_fuel fuel p.2 (process_text_tag st p.1)
    else if st.in_skip_element = 0 then
      let d := decode_entity c rest
      text_go_fuel fuel d.2 { st with output := st.output ++ [d.1] }
    else text_go_fuel fuel rest st

/-- Scan loop of `html_to_text` at its natural budget. -/
def text_go (s : Str) (st : TextState) : TextState := text_go_fuel s.length s st

/-- Initial state of a plain-text conversion. -/
def initial_text_state : TextState :=
  { output := [], in_skip_element := 0, skip_elements := [] }

/-- Model of `html_to_text` (convert.rs lines 199-265). -/
def html_to_text (html : Str) : Str :=
  clean_whitespace (text_go html initial_text_state).output

/-- Outcome of one iteration of the body-read select loop
(default.rs lines 301-322): either the chunk future resolved (with a good
chunk, an error, or end of stream) or the deadline fired. -/
inductive ChunkEvent where
  | chunkOk (bytes : List Nat)
  | chunkErr
  | streamEnd
  | deadline
deriving Repr, DecidableEq

/-- Loop of `read_body_with_timeout` (default.rs lines 297-323) over the
sequence of select outcomes it consumes; `none` models a sequence on which
the loop has not yet terminated. -/
def read_body_loop : List ChunkEvent → List Nat → Option (List Nat × Bool)
  | [], _ => none
  | ChunkEvent.chunkOk bs :: rest, body => read_body_loop rest (body ++ bs)
  | ChunkEvent.chunkErr :: _, body => some (body, !body.isEmpty)
  | ChunkEvent.streamEnd :: _, body => some (body, false)
  | ChunkEvent.deadline :: _, body => some (body, true)

/-- Model of `read_body_with_timeout` (default.rs lines 292-324). -/
def read_body_with_timeout (events : List ChunkEvent) : Option (List Nat × Bool) :=
  read_body_loop events []

/-- Sentinel appended to truncated content (default.rs line 45). -/
def TIMEOUT_MESSAGE : Str := "\n\n[..more content timed out...]".toList

/-- Fields of the generic GET response relevant to conversion
(default.rs lines 217-228). -/
structure GetResponseModel where
  format : Str
  content : Str
  truncated : Option Bool
deriving Repr, DecidableEq

/-- Model of the tail of `DefaultFetcher::fetch` after the body was read
(default.rs lines 190-228): choose the format and convert, cap newline
runs, append the sentinel when truncated, and surface the flag. -/
def assemble_get_response (content_type : Option Str) (content : Str)
    (truncated : Bool) (wants_markdown wants_text : Bool) : GetResponseModel :=
  let fm :=
    if is_html content_type content then
      if wants_markdown then ( "markdown".toList, html_to_markdown content)
      else if wants_text then ( "text".toList, html_to_text content)
      else ( "raw".toList, content)
    else ( "raw".toList, content)
  let fc := filter_excessive_newlines fm.2
  let fc := if truncated then fc ++ TIMEOUT_MESSAGE else fc
  { format := fm.1, content := fc,
    truncated := if truncated then some true else none }

/-- Error taxonomy of the library (error.rs), with message payloads kept
as strings. -/
inductive FetchErrorModel where
  | missingUrl
  | invalidUrlScheme
  | invalidMethod
  | blockedUrl
  | clientBuildError
  | firstByteTimeout
  | connectError
  | requestError (msg : Str)
  | fetcherError (msg : Str)
deriving Repr, DecidableEq

/-- Structural view of a parsed URL: the pieces of `url::Url` the fetchers
consult (`host_str` and `path_segments`). -/
structure UrlModel where
  host : Option Str
  path_segments : Option (List Str)
deriving Repr, DecidableEq

/-- Reserved GitHub path roots (github_repo.rs lines 56-77). -/
def GITHUB_RESERVED : List Str :=
  [ "settings".toList, "explore".toList, "trending".toList,
    "collections".toList, "events".toList, "sponsors".toList,
    "notifications".toList, "marketplace".toList, "pulls".toList,
    "issues".toList, "codespaces".toList, "features".toList,
    "enterprise".toList, "organizations".toList, "pricing".toList,
    "about".toList, "team".toList, "security".toList, "login".toList,
    "join".toList]

/-- Model of `GitHubRepoFetcher::parse_github_url` (github_repo.rs lines
32-83): github.com host, exactly two path segments, both non-empty, and a
non-reserved owner. -/
def parse_github_url (u : UrlModel) : Option (Str × Str) :=
  if u.host ≠ some ( "github.com".toList) then none
  else
    match u.path_segments.getD [] with
    | [owner, repo] =>
      if owner = [] ∨ repo = [] then none
      else if GITHUB_RESERVED.contains owner then none
      else some (owner, repo)
    | _ => none

/-- Model of `GitHubRepoFetcher::matches` (github_repo.rs lines 142-144). -/
def github_matches (u : UrlModel) : Bool := (parse_github_url u).isSome

/-- Behavioural interface of a registered fetcher: its name and its URL
predicate (fetchers/mod.rs lines 24-43). -/
structure FetcherModel where
  name : Str
  matches_url : UrlModel → Bool

/-- Result of registry dispatch: a validation failure, or the name of the
fetcher that receives the request (per-fetcher logic runs only in the
`dispatched` case). -/
inductive RegistryOutcome where
  | failed (e : FetchErrorModel)
  | dispatched (name : Str)
deriving Repr, DecidableEq

/-- Model of `FetcherRegistry::fetch` up to fetcher dispatch
(fetchers/mod.rs lines 94-138); `parse_url` abstracts `Url::parse`, whose
failure is reported as `InvalidUrlScheme`. -/
def registry_fetch (parse_url : Str → Option UrlModel)
    (fetchers : List FetcherModel) (url : Str)
    (allow_list block_list : List Str) : RegistryOutcome :=
  if !(List.isPrefixOf ( "http://".toList) url ||
       List.isPrefixOf ( "https://".toList) url) then
    RegistryOutcome.failed FetchErrorModel.invalidUrlScheme
  else
    match parse_url url with
    | none => RegistryOutcome.failed FetchErrorModel.invalidUrlScheme
    | some parsed =>
      if !allow_list.isEmpty &&
          !(allow_list.any (fun p => List.isPrefixOf p url)) then
        RegistryOutcome.failed FetchErrorModel.blockedUrl
      else if block_list.any (fun p => List.isPrefixOf p url) then
        RegistryOutcome.failed FetchErrorModel.blockedUrl
      else
        match fetchers.find? (fun f => f.matches_url parsed) with
        | some f => RegistryOutcome.dispatched f.name
        | none =>
          RegistryOutcome.failed (FetchErrorModel.fetcherError
            ( "No fetcher available for URL".toList))

/-- Model of `fetch_with_options` (client.rs lines 43-55): the empty-URL
check happens in this wrapper, before the registry runs. -/
def fetch_with_options (parse_url : Str → Option UrlModel)
    (fetchers : List FetcherModel) (url : Str)
    (allow_list block_list : List Str) : RegistryOutcome :=
  if url.isEmpty then RegistryOutcome.failed FetchErrorModel.missingUrl
  else registry_fetch parse_url fetchers url allow_list block_list

theorem read_body_loop_append_oks (oks : List (List Nat)) (evs : List ChunkEvent)
    (acc : List Nat) :
    read_body_loop (oks.map ChunkEvent.chunkOk ++ evs) acc =
      read_body_loop evs (acc ++ oks.flatten) := by
  induction oks generalizing acc with
  | nil => simp
  | cons a rest ih =>
    have h1 : (ChunkEvent.chunkOk a :: rest.map ChunkEvent.chunkOk) ++ evs =
        ChunkEvent.chunkOk a :: (rest.map ChunkEvent.chunkOk ++ evs) := rfl
    simp only [List.map_cons, h1, read_body_loop]
    show read_body_loop (List.map ChunkEvent.chunkOk rest ++ evs) (acc ++ a) =
      read_body_loop evs (acc ++ (a :: rest).flatten)
    rw [ih (acc ++ a), List.flatten_cons, ← List.append_assoc]

/-- C1: for every consumed select sequence of the bounded body reader — a
run of good chunks followed by a terminating event — a chunk error yields
the accumulated bytes with truncated set exactly when at least one byte
was accumulated (so empty bytes come back untruncated), the deadline
yields the accumulated bytes as truncated, and clean stream end yields
them untruncated. -/
theorem claim_C1_read_body (oks : List (List Nat)) (rest : List ChunkEvent) :
    read_body_with_timeout (oks.map ChunkEvent.chunkOk ++ ChunkEvent.chunkErr :: rest) =
        some (oks.flatten, !oks.flatten.isEmpty) ∧
    read_body_with_timeout (oks.map ChunkEvent.chunkOk ++ ChunkEvent.deadline :: rest) =
        some (oks.flatten, true) ∧
    read_body_with_timeout (oks.map ChunkEvent.chunkOk ++ ChunkEvent.streamEnd :: rest) =
        some (oks.flatten, false) := by
  unfold read_body_with_timeout
  rw [read_body_loop_append_oks, read_body_loop_append_oks, read_body_loop_append_oks]
  simp [read_body_loop]

/-- C2: whenever the body read of the generic GET path ends truncated, the
assembled response carries truncated = some true and its content ends with
the timeout sentinel. -/
theorem claim_C2_truncation (content_type : Option Str) (content : Str)
    (wants_markdown wants_text : Bool) :
    (assemble_get_response content_type content true wants_markdown
        wants_text).truncated = some true ∧
    TIMEOUT_MESSAGE <:+
      (assemble_get_response content_type content true wants_markdown
        wants_text).content := by
  constructor
  · rfl
  · exact List.suffix_append _ _

theorem fen_go_twice (s : Str) :
    ∀ k j, (j = k ∨ (2 ≤ k ∧ 2 ≤ j)) → fen_go (fen_go s k) j = fen_go s k := by
  induction s with
  | nil => intro k j _; simp [fen_go]
  | cons c rest ih =>
    intro k j hkj
    by_cases hc : c = '\n'
    · subst hc
      by_cases hk : k + 1 ≤ 2
      · have hj : j = k := by
          rcases hkj with h | ⟨h2k, _⟩
          · exact h
          · omega
        rw [hj]
        have h1 : fen_go ('\n' :: rest) k = '\n' :: fen_go rest (k + 1) := by
          simp [fen_go, hk]
        rw [h1]
        have h2 : fen_go ('\n' :: fen_go rest (k + 1)) k =
            '\n' :: fen_go (fen_go rest (k + 1)) (k + 1) := by
          simp [fen_go, hk]
        rw [h2, ih (k + 1) (k + 1) (Or.inl rfl)]
      · have h2j : 2 ≤ j := by
          rcases hkj with h | ⟨_, h⟩
          · omega
          · exact h
        have h1 : fen_go ('\n' :: rest) k = fen_go rest (k + 1) := by
          simp [fen_go, hk]
        rw [h1, ih (k + 1) j (Or.inr ⟨by omega, h2j⟩)]
    · have h1 : fen_go (c :: rest) k = c :: fen_go rest 0 := by
        simp [fen_go, hc]
      have h2 : fen_go (c :: fen_go rest 0) j = c :: fen_go (fen_go rest 0) 0 := by
        simp [fen_go, hc]
      rw [h1, h2, ih 0 0 (Or.inl rfl)]

/-- C4 (amended): filter_excessive_newlines is idempotent for all strings,
but clean_whitespace is not idempotent in general (its newline counter is
reset by interleaved non-newline whitespace that emits nothing, so a first
pass can create a three-newline run that a second pass then caps). -/
theorem claim_C4_idempotence :
    (∀ s : Str, filter_excessive_newlines (filter_excessive_newlines s) =
        filter_excessive_newlines s) ∧
    ¬ (∀ s : Str, clean_whitespace (clean_whitespace s) = clean_whitespace s) := by
  constructor
  · intro s
    exact fen_go_twice s 0 0 (Or.inl rfl)
  · intro h
    exact absurd (h ( "a\n \n \nb".toList)) (by decide)

/-- C4 counterexample: clean_whitespace is not idempotent at the input
consisting of the letter a, then three newlines separated by single
spaces, then the letter b. -/
theorem claim_C4_counterexample :
    clean_whitespace (clean_whitespace ( "a\n \n \nb".toList)) ≠
      clean_whitespace ( "a\n \n \nb".toList) := by
  decide

/-- C5: clean_whitespace violates the newline cap — at this input its
output is the letter a, three consecutive newlines, and the letter b. -/
theorem claim_C5_newline_cap_bug :
    clean_whitespace ( "a\n \n \nb".toList) = "a\n\n\nb".toList ∧
    ( "\n\n\n".toList) <:+: clean_whitespace ( "a\n \n \nb".toList) := by
  constructor
  · decide
  · exact ⟨ "a".toList, "b".toList, by decide⟩

/-- C9: the entity decoder maps the five named entities amp, lt, gt, quot
and apos to their characters, and both the decimal entity 65 and the
hexadecimal entity x41 to the letter A, leaving the rest of the stream
untouched. -/
theorem claim_C9_entities (t : Str) :
    decode_entity '&' ( "amp;".toList ++ t) = ('&', t) ∧
    decode_entity '&' ( "lt;".toList ++ t) = ('<', t) ∧
    decode_entity '&' ( "gt;".toList ++ t) = ('>', t) ∧
    decode_entity '&' ( "quot;".toList ++ t) = (quote_char, t) ∧
    decode_entity '&' ( "apos;".toList ++ t) = (apos_char, t) ∧
    decode_entity '&' ( "#65;".toList ++ t) = ('A', t) ∧
    decode_entity '&' ( "#x41;".toList ++ t) = ('A', t) :=
  ⟨rfl, rfl, rfl, rfl, rfl, rfl, rfl⟩

theorem span_tag_no_gt (t : Str) (h : '>' ∉ t) : span_tag t = (t, []) := by
  induction t with
  | nil => rfl
  | cons c rest ih =>
    have hc : ¬ c = '>' := by
      rintro rfl
      exact h (List.mem_cons_self _ _)
    simp only [span_tag, if_neg hc]
    rw [ih (fun hm => h (List.mem_cons_of_mem c hm))]

/-- C10 (amended): when the scan reaches a left angle bracket in text
position and no right angle bracket follows, both converters consume the
entire remainder as one unterminated tag — only the tag effect is applied
and none of those characters are emitted as text; converting the string
hello-space-bracket-world yields hello in both modes.  (A left angle
bracket consumed inside an entity scan does not start a tag; see the
counterexample.) -/
theorem claim_C10_unterminated :
    (∀ (st : MdState) (t : Str), '>' ∉ t →
      md_go ('<' :: t) st = process_md_tag st t) ∧
    (∀ (st : TextState) (t : Str), '>' ∉ t →
      text_go ('<' :: t) st = process_text_tag st t) ∧
    html_to_markdown ( "hello <world".toList) = "hello".toList ∧
    html_to_text ( "hello <world".toList) = "hello".toList := by
  refine ⟨?_, ?_, by decide, by decide⟩
  · intro st t h
    show md_go_fuel (t.length + 1) ('<' :: t) st = process_md_tag st t
    simp [md_go_fuel, span_tag_no_gt t h]
  · intro st t h
    show text_go_fuel (t.length + 1) ('<' :: t) st = process_text_tag st t
    simp [text_go_fuel, span_tag_no_gt t h]

/-- C10 counterexample: an input containing a left angle bracket with no
later right angle bracket on which characters after the bracket do appear
as text — the bracket is swallowed mid-entity, so the final z survives
into the output of both converters. -/
theorem claim_C10_counterexample :
    html_to_text ( "&x<y z".toList) = "& z".toList ∧
    html_to_markdown ( "&x<y z".toList) = "& z".toList := by
  constructor <;> decide

/-- Witness for C10 at a concrete state and a concrete tag remainder. -/
theorem claim_C10_witness :
    md_go ('<' :: "world".toList) initial_md_state =
        process_md_tag initial_md_state ( "world".toList) ∧
    text_go ('<' :: "world".toList) initial_text_state =
        process_text_tag initial_text_state ( "world".toList) :=
  ⟨claim_C10_unterminated.1 initial_md_state ( "world".toList) (by decide),
   claim_C10_unterminated.2.1 initial_text_state ( "world".toList) (by decide)⟩

theorem find_sub_isSome_iff (hay pat : Str) :
    (find_sub hay pat).isSome = true ↔ pat <:+: hay := by
  induction hay with
  | nil =>
    by_cases h : pat = [] <;> simp [find_sub, h, List.infix_nil]
  | cons c rest ih =>
    by_cases h : pat.isPrefixOf (c :: rest)
    · simp only [find_sub, if_pos h, Option.isSome_some, true_iff]
      exact (List.isPrefixOf_iff_prefix.mp h).isInfix
    · simp only [find_sub, if_neg h, List.infix_cons_iff]
      have hm : (Option.map (fun x => x + 1) (find_sub rest pat)).isSome =
          (find_sub rest pat).isSome := by
        cases find_sub rest pat <;> rfl
      rw [hm, ih]
      have hnp : ¬ pat <+: c :: rest := fun hp => h (List.isPrefixOf_iff_prefix.mpr hp)
      tauto

theorem str_contains_iff_infix (hay pat : Str) :
    str_contains hay pat = true ↔ pat <:+: hay :=
  find_sub_isSome_iff hay pat

/-- Modelled from the spec: the body-sniffing clause of `is_html` as the
spec words it — the left-trimmed body start is matched case-insensitively
against the doctype marker and against the html tag written with its
closing bracket. -/
def is_html_spec (content_type : Option Str) (body : Str) : Bool :=
  (match content_type with
   | some ct =>
     let ctl := to_lowercase ct
     str_contains ctl ( "text/html".toList) ||
     str_contains ctl ( "application/xhtml".toList)
   | none => false) ||
  (let trimmed := to_lowercase (trim_start_ws body)
   List.isPrefixOf ( "<!doctype".toList) trimmed ||
   List.isPrefixOf ( "<html>".toList) trimmed)

/-- C3 counterexample: a body whose left-trimmed start matches the doctype
marker case-insensitively (as the claim requires) that `is_html` — whose
body check is case-sensitive — nevertheless rejects. -/
theorem claim_C3_counterexample :
    is_html none ( "<!doctype html>".toList) = false ∧
    is_html_spec none ( "<!doctype html>".toList) = true := by
  constructor <;> decide

/-- C3 (amended): is_html is true exactly when the declared content type
case-insensitively contains text/html or application/xhtml, or otherwise
when the body's left-trimmed start begins with the case-sensitive strings
DOCTYPE-marker or open-html-tag (no closing bracket required); in
particular a body starting with the uppercase doctype marker is detected
as HTML even under a text/plain content type. -/
theorem claim_C3_is_html (content_type : Option Str) (body : Str) :
    (is_html content_type body = true ↔
      (∃ ct, content_type = some ct ∧
        (( "text/html".toList) <:+: to_lowercase ct ∨
         ( "application/xhtml".toList) <:+: to_lowercase ct)) ∨
      ( "<!DOCTYPE".toList) <+: trim_start_ws body ∨
      ( "<html".toList) <+: trim_start_ws body) ∧
    is_html (some ( "text/plain".toList)) ( "<!DOCTYPE html><html></html>".toList) = true := by
  refine ⟨?_, by decide⟩
  cases content_type with
  | none =>
    simp [is_html, str_contains_iff_infix, List.isPrefixOf_iff_prefix]
  | some ct =>
    simp [is_html, str_contains_iff_infix, List.isPrefixOf_iff_prefix, or_assoc]

/-- C6 counterexample: on the empty URL, FetcherRegistry::fetch itself
fails the scheme check and returns InvalidUrlScheme — not MissingUrl as
the claim states (the MissingUrl check lives in the client wrapper). -/
theorem claim_C6_counterexample :
    registry_fetch (fun _ => none) [] [] [] [] =
        RegistryOutcome.failed FetchErrorModel.invalidUrlScheme ∧
    registry_fetch (fun _ => none) [] [] [] [] ≠
        RegistryOutcome.failed FetchErrorModel.missingUrl := by
  constructor <;> decide

/-- C6 (amended): the library entry point fetch_with_options rejects an
empty URL with MissingUrl before the registry runs; FetcherRegistry::fetch
rejects any URL lacking an http or https prefix — the empty URL included —
with InvalidUrlScheme; both rejections are independent of the registered
fetchers, hence happen before any per-fetcher logic. -/
theorem claim_C6_validation (parse_url : Str → Option UrlModel)
    (fetchers : List FetcherModel) (allow_list block_list : List Str)
    (url : Str) :
    (url = [] →
      fetch_with_options parse_url fetchers url allow_list block_list =
        RegistryOutcome.failed FetchErrorModel.missingUrl) ∧
    ((List.isPrefixOf ( "http://".toList) url ||
      List.isPrefixOf ( "https://".toList) url) = false →
      registry_fetch parse_url fetchers url allow_list block_list =
        RegistryOutcome.failed FetchErrorModel.invalidUrlScheme) := by
  constructor
  · intro h
    subst h
    rfl
  · intro h
    unfold registry_fetch
    rw [h]
    rfl

/-- Witness for the amended C6 at concrete inputs: the empty URL through
the client wrapper, and an ftp URL through the registry. -/
theorem claim_C6_validation_witness :
    fetch_with_options (fun _ => none) [] [] [] [] =
        RegistryOutcome.failed FetchErrorModel.missingUrl ∧
    registry_fetch (fun _ => none) [] ( "ftp://example.com".toList) [] [] =
        RegistryOutcome.failed FetchErrorModel.invalidUrlScheme :=
  ⟨(claim_C6_validation (fun _ => none) [] [] [] []).1 rfl,
   (claim_C6_validation (fun _ => none) [] [] []
      ( "ftp://example.com".toList)).2 (by decide)⟩

/-- C7 counterexample: a github.com URL with exactly two path segments
whose first segment is the reserved name settings is not matched by the
GitHub repository fetcher, contradicting the claim's universal statement
about two-segment URLs. -/
theorem claim_C7_counterexample :
    (UrlModel.mk (some ( "github.com".toList))
        (some [ "settings".toList, "profile".toList])).host =
      some ( "github.com".toList) ∧
    ((UrlModel.mk (some ( "github.com".toList))
        (some [ "settings".toList, "profile".toList])).path_segments.getD
        []).length = 2 ∧
    github_matches (UrlModel.mk (some ( "github.com".toList))
        (some [ "settings".toList, "profile".toList])) = false := by
  refine ⟨rfl, rfl, ?_⟩
  decide

/-- C7 (amended): the GitHub repository fetcher matches exactly the
github.com URLs with exactly two path segments that are both non-empty and
whose first segment is not a reserved GitHub path root; in particular any
URL with one or three path segments is not matched and falls through. -/
theorem claim_C7_matches (u : UrlModel) :
    github_matches u = true ↔
      u.host = some ( "github.com".toList) ∧
      ∃ owner repo, u.path_segments.getD [] = [owner, repo] ∧
        owner ≠ [] ∧ repo ≠ [] ∧ ¬ owner ∈ GITHUB_RESERVED := by
  unfold github_matches parse_github_url
  by_cases hh : u.host = some ( "github.com".toList)
  · rw [if_neg (by simp [hh])]
    cases hsegs : u.path_segments.getD [] with
    | nil => simp [hh, hsegs]
    | cons a t =>
      cases t with
      | nil => simp [hh, hsegs]
      | cons b t2 =>
        cases t2 with
        | nil =>
          simp only [hh, true_and, hsegs]
          constructor
          · intro hsome
            split_ifs at hsome with h1 h2
            · simp at hsome
            · simp at hsome
            · push_neg at h1
              refine ⟨a, b, rfl, h1.1, h1.2, ?_⟩
              intro hmem
              exact h2 (by simpa using hmem)
          · rintro ⟨o, r, heq, ho, hr, hres⟩
            obtain ⟨rfl, rfl⟩ : a = o ∧ b = r := by
              simpa using heq
            rw [if_neg (by simp [ho, hr]), if_neg (by simpa using hres)]
            rfl
        | cons d t3 => simp [hh, hsegs]
  · rw [if_pos (by simpa using hh)]
    constructor
    · intro hq
      exact absurd hq (by simp)
    · rintro ⟨h1, -⟩
      exact absurd h1 hh

/-- C8: in Markdown mode, an opening a tag carrying an href attribute
emits the opening bracket immediately followed by the closing bracket and
the parenthesized href; the link text is not wrapped into the brackets
and can only appear after the bracket pair. -/
theorem claim_C8_links (st : MdState) (tag href : Str)
    (hskip : st.in_skip_element = 0)
    (hinfo : tag_info tag = (false, "a".toList))
    (hhref : extract_attribute tag ( "href".toList) = some href) :
    (process_md_tag st tag).output =
      st.output ++ [ '[' ] ++ "](".toList ++ href ++ [ ')' ] := by
  unfold process_md_tag
  rw [hinfo]
  show (process_md_tag_core st tag false ( "a".toList)).output = _
  unfold process_md_tag_core
  rw [hskip, hhref]
  simp [SKIP_TAGS]

/-- Witness for C8 at a concrete opening a tag with a bare href value. -/
theorem claim_C8_links_witness :
    (process_md_tag initial_md_state ( "a href=https://x.io".toList)).output =
      initial_md_state.output ++ [ '[' ] ++ "](".toList ++
        ( "https://x.io".toList) ++ [ ')' ] :=
  claim_C8_links initial_md_state ( "a href=https://x.io".toList)
    ( "https://x.io".toList) rfl (by decide) (by decide)
